import Mathlib

/-!
Verification of the grest router (router.go): a shallow embedding of the
layer-stack dispatch engine.  The dispatch algorithm (`Router.route`, its
continuation `next`, the scan loop, and the automatic OPTIONS wrapper) is
translated from `src/router.go`.  The repository's `layer.go` and `route.go`
(pattern matcher, per-method handler table) are not among the given source
files; those definitions are modelled from the spec and are marked as such.
-/

namespace Grest

/-- Errors carried by a continuation (`Next func(err error)` in router.go,
line 11); Go's `error` interface is modelled as a string message. -/
abbrev Err := String

/-- Observable events recorded while a request is dispatched: which layer's
handler was invoked (by its index in the owning router's stack), which
registered handler body ran, and the invocation of the terminal callback
with its error argument.  This is the instrumentation of the boundary
collaborator of spec §6. -/
inductive Event where
  | layerInvoked (i : Nat)
  | ran (id : Nat)
  | terminal (e : Option Err)
deriving DecidableEq, Repr

/-- The per-request observable state: response headers and body writes (the
`http.ResponseWriter` sink), the request's queryable parameter set
(`url.Values`, a name mapped to an ordered list of values), and the event
trace. -/
structure DState where
  headers : List (String × String)
  body : List String
  query : List (String × List String)
  trace : List Event
deriving DecidableEq, Repr

/-- Append an event to the trace. -/
def pushEvent (st : DState) (e : Event) : DState :=
  { st with trace := st.trace ++ [e] }

/-- Append one body write (`res.Write(data)`). -/
def writeBody (st : DState) (b : String) : DState :=
  { st with body := st.body ++ [b] }

/-- Append one response header (`res.Header().Add(n, v)`). -/
def addHeader (st : DState) (n v : String) : DState :=
  { st with headers := st.headers ++ [(n, v)] }

/-- Append a value under a name in a `url.Values`-style mapping: if the name
is present the value is appended to its list (additive, never clobbering),
otherwise a new entry is created. -/
def addQueryValue : List (String × List String) → String → String → List (String × List String)
  | [], name, v => [(name, [v])]
  | (n, vs) :: rest, name, v =>
    if n = name then (n, vs ++ [v]) :: rest else (n, vs) :: addQueryValue rest name v

/-- Modelled from the spec: `layer.registerParamsAsQuery` (layer.go is not
among the source files).  Spec §4.4 step 7: captured path parameters are
merged into the request's queryable parameter set additively, without
deleting pre-existing query parameters. -/
def regParams (st : DState) (ps : List (String × String)) : DState :=
  { st with query := ps.foldl (fun q p => addQueryValue q p.1 p.2) st.query }

/-- `strings.Join(l, ",")` as used on router.go line 198. -/
def joinComma : List String → String
  | [] => ""
  | [x] => x
  | x :: xs => x ++ "," ++ joinComma xs

/-- `strings.TrimPrefix(s, pre)` (router.go line 216): remove `pre` from the
front of `s` when it is a literal prefix, otherwise return `s` unchanged. -/
def trimPrefix (s pre : String) : String :=
  if pre.data.isPrefixOf s.data then String.mk (s.data.drop pre.data.length) else s

/-- A request as the dispatch routine reads it: `req.Method` and
`req.URL.Path`. -/
structure Request where
  method : String
  path : String
deriving DecidableEq, Repr

/-- The concrete behavior of a registered plain handler
(`HTTPHandleFunc`): it either records that it ran and invokes its
continuation with a fixed optional error, or records that it ran, writes a
response body and terminates the chain by not invoking the continuation. -/
inductive Action where
  | tapNext (id : Nat) (e : Option Err)
  | send (id : Nat) (b : String)
deriving DecidableEq, Repr

mutual
/-- `HTTPHandler` (router.go lines 14-16): either a plain function-shaped
handler or a nested `Router` (router.go lines 263-266 make `*Router`
implement `HTTPHandler`). -/
inductive Handler where
  | act : Action → Handler
  | router : Router → Handler

/-- `Router` (router.go lines 20-23): an ordered layer stack and a
`routerPrefix` trimmed off the request path when routing. -/
inductive Router where
  | mk : List Layer → String → Router

/-- A layer of the stack: either a pure-middleware registration made by
`Use` (pattern, handler, `l.route = nil`, router.go lines 52-53) or a
route registration made by `Route` (pattern, owned `Route`, router.go
lines 73-77). -/
inductive Layer where
  | mw : String → Handler → Layer
  | rt : String → Route → Layer

/-- `Route` (route.go is not among the source files): per spec §2 and §4.2,
a path together with a table mapping HTTP method names to ordered handler
chains; repeated registration entries accumulate. -/
inductive Route where
  | mk : String → List (String × List Handler) → Route
end

/-- The stack field of a router. -/
def Router.stack : Router → List Layer
  | .mk s _ => s

/-- The routerPrefix field of a router. -/
def Router.routerPrefix : Router → String
  | .mk _ p => p

/-- The `route` field of a layer (`nil` for middleware layers, the owned
`Route` for route layers). -/
def Layer.route : Layer → Option Route
  | .mw _ _ => none
  | .rt _ r => some r

/-- The pattern a layer was registered under. -/
def Layer.pattern : Layer → String
  | .mw p _ => p
  | .rt p _ => p

/-- Split a raw path into its non-empty `/`-separated segments (helper for
the pattern matcher, which is modelled from the spec). -/
def splitSlashAux : List Char → List Char → List String
  | [], acc => [String.mk acc.reverse]
  | c :: cs, acc =>
    if c = '/' then String.mk acc.reverse :: splitSlashAux cs []
    else splitSlashAux cs (c :: acc)

/-- Segments of a path: split on `/`, dropping empty segments. -/
def segsOf (s : String) : List String :=
  (splitSlashAux s.data []).filter (fun x => x ≠ "")

/-- A pattern segment that captures a parameter: it starts with `:`. -/
def isParamSeg (p : String) : Bool :=
  match p.data with
  | ':' :: _ => true
  | _ => false

/-- The captured parameter's name: the segment without its leading `:`. -/
def paramName (p : String) : String := String.mk (p.data.drop 1)

/-- Modelled from the spec: exact-mode segment matching for route layers
(layer.go is not among the source files).  Spec §4.1: segment counts must
agree, literal segments compare equal, `:`-prefixed segments capture the
path segment under the parameter name; a rejected match captures nothing. -/
def matchSegsExact : List String → List String → Option (List (String × String))
  | [], [] => some []
  | p :: ps, x :: xs =>
    if isParamSeg p then (matchSegsExact ps xs).map (fun l => (paramName p, x) :: l)
    else if p = x then matchSegsExact ps xs else none
  | _, _ => none

/-- Modelled from the spec: prefix-mode segment matching for middleware
layers (layer.go is not among the source files).  Spec §4.1: a "use"
pattern matches any path beginning with it as a segment-aligned prefix
(so `/user` does not match `/users`), with the same parameter capture. -/
def matchSegsPre : List String → List String → Option (List (String × String))
  | [], _ => some []
  | p :: ps, x :: xs =>
    if isParamSeg p then (matchSegsPre ps xs).map (fun l => (paramName p, x) :: l)
    else if p = x then matchSegsPre ps xs else none
  | _ :: _, [] => none

/-- Modelled from the spec: `layer.match(path)` (layer.go is not among the
source files), returning captured parameters and a match flag, exactly the
shape consumed by `Router.matchLayer` (router.go lines 181-184).  Middleware
layers match in prefix mode, route layers in exact mode. -/
def Layer.matchPath (l : Layer) (path : String) : List (String × String) × Bool :=
  let r := match l with
    | .mw pat _ => matchSegsPre (segsOf pat) (segsOf path)
    | .rt pat _ => matchSegsExact (segsOf pat) (segsOf path)
  match r with
  | some ps => (ps, true)
  | none => ([], false)

/-- The handler chain a route holds for a method: the concatenation of all
registration entries for that method, in registration order (spec §4.2:
multiple registrations accumulate). -/
def Route.chainFor : Route → String → List Handler
  | .mk _ ms, m => (ms.filter (fun p => p.1 == m)).foldr (fun p acc => p.2 ++ acc) []

/-- Modelled from the spec: `route.handlesMethod(method)` (route.go is not
among the source files).  Spec §4.2: true iff the method has a non-empty
chain, or the method is `HEAD` and `GET` has a non-empty chain. -/
def Route.handlesMethod (r : Route) (m : String) : Bool :=
  !(r.chainFor m).isEmpty || (m == "HEAD" && !(r.chainFor "GET").isEmpty)

/-- Keep the first occurrence of every string, dropping later repeats
(helper for `Route.optionsMethods`). -/
def dedupFirstAux : List String → List String → List String
  | [], _ => []
  | x :: xs, seen =>
    if seen.contains x then dedupFirstAux xs seen else x :: dedupFirstAux xs (x :: seen)

/-- Modelled from the spec: `route.optionsMethods()` (route.go is not among
the source files).  Spec §4.2: every method with a non-empty chain, in
registration order. -/
def Route.optionsMethods : Route → List String
  | .mk _ ms => dedupFirstAux ((ms.filter (fun p => !p.2.isEmpty)).map Prod.fst) []

/-- The scan loop of `next` (router.go lines 228-249), written as a
function of the not-yet-visited suffix of the stack: starting at global
index `i`, find the first layer that path-matches and either carries no
route, or whose route handles the method, or the method is `HEAD`; a
path-matching route that does not handle an `OPTIONS` request contributes
its `optionsMethods()` to the accumulator before the scan moves on.
Returns the selected (global index, layer, captured parameters), if any,
and the final accumulator. -/
def scanStack : List Layer → Nat → String → String → List String →
    Option (Nat × Layer × List (String × String)) × List String
  | [], _, _, _, allow => (none, allow)
  | l :: rest, i, path, method, allow =>
    match l.matchPath path with
    | (ps, true) =>
      match l.route with
      | none => (some (i, l, ps), allow)
      | some rt =>
        if rt.handlesMethod method then (some (i, l, ps), allow)
        else
          let allow' := if method = "OPTIONS" then allow ++ rt.optionsMethods else allow
          if method = "HEAD" then (some (i, l, ps), allow')
          else scanStack rest (i + 1) path method allow'
    | (_, false) => scanStack rest (i + 1) path method allow

/-- A continuation (`Next`): takes the optional error and the observable
state; `none` as a result means the fuel ran out. -/
abbrev Done := Option Err → DState → Option DState

/-- The terminal callback as the dispatch loop sees it after the OPTIONS
wrapping of router.go lines 190-208: it also receives the current
accumulated allowed-methods list (in Go the wrapper reads the mutable
`allowOptionsMethods` it closed over; here the current value is passed). -/
abbrev DoneA := List String → Option Err → DState → Option DState

/-- The body-encoding collaborator (`json.Marshal` on router.go line 199):
out of scope per spec §1, supplied as a parameter that may fail. -/
abbrev Enc := List String → Except Err String

/-- The wrapped terminal callback installed for `OPTIONS` requests
(router.go lines 193-207): on an error or an empty accumulated list it
delegates to the original callback; otherwise it adds the `Allow` header,
encodes the accumulated list, escalates an encoding error to the original
callback, and on success writes the encoded body. -/
def optionsDone (enc : Enc) (done : Done) (allow : List String) (e : Option Err)
    (st : DState) : Option DState :=
  match e with
  | some er => done (some er) st
  | none =>
    if allow.isEmpty then done none st
    else
      let st1 := addHeader st "Allow" (joinComma allow)
      match enc allow with
      | .error er => done (some er) st1
      | .ok data => some (writeBody st1 data)

/-- The terminal-callback wrapping performed at the top of `Router.route`
(router.go lines 190-208): only an `OPTIONS` request gets the automatic
responder; any other method's callback ignores the accumulator. -/
def wrapDone (enc : Enc) (method : String) (done : Done) : DoneA :=
  if method = "OPTIONS" then fun allow e st => optionsDone enc done allow e st
  else fun _ e st => done e st

/-- A pending dispatch step: either one invocation of the `next`
continuation of `Router.route` (router.go lines 210-258) with its closed-over
router, wrapped terminal callback, cursor and accumulator, or one step of a
route's own handler chain. -/
inductive Task where
  | disp : Router → Request → DoneA → Nat → List String → Option Err → DState → Task
  | chain : List Handler → Request → Done → DState → Task

/-- Run a plain handler body: record the run and either invoke the
continuation with the handler's error or write a body and stop. -/
def runAction (a : Action) (k : Done) (st : DState) : Option DState :=
  match a with
  | .tapNext id e => k e (pushEvent st (.ran id))
  | .send id b => some (writeBody (pushEvent st (.ran id)) b)

/-- One fuel-indexed step of the dispatch engine.

`.disp` is `next(err)` of router.go lines 210-258: if the cursor is past the
stack, call the terminal callback; strip the router's prefix off the request
path and call the terminal callback if the result is empty; otherwise scan
forward for the next usable layer (accumulating `OPTIONS` methods); if no
usable layer was found or an error is pending, call the terminal callback
with the current error; otherwise merge the captured parameters into the
query state, record the invocation, and run the matched layer's handler with
a continuation that resumes at the advanced cursor.  A nested router runs
`Router.route` on itself with the continuation as terminal callback
(`HTTPHandle`, router.go lines 264-266), including that call's own OPTIONS
wrapping.

`.chain` is modelled from the spec (route.go is not among the source files),
§4.2: a matched route runs the chain registered for the request method, each
handler continuing to the next, an error escalating to the outer
continuation, exhaustion invoking the outer continuation with no error. -/
def exec (enc : Enc) : Nat → Task → Option DState
  | 0, _ => none
  | fuel + 1, .disp r req doneA idx allow e st =>
    if r.stack.length ≤ idx then doneA allow e st
    else
      let path := trimPrefix req.path r.routerPrefix
      if path = "" then doneA allow e st
      else
        match scanStack (r.stack.drop idx) idx path req.method allow with
        | (none, allow') => doneA allow' e st
        | (some (j, l, ps), allow') =>
          match e with
          | some er => doneA allow' (some er) st
          | none =>
            let k : Done := fun e' s => exec enc fuel (.disp r req doneA (j + 1) allow' e' s)
            let st2 := pushEvent (regParams st ps) (.layerInvoked j)
            match l with
            | .mw _ (.act a) => runAction a k st2
            | .mw _ (.router sub) =>
              exec enc fuel (.disp sub req (wrapDone enc req.method k) 0 [] none st2)
            | .rt _ rt => exec enc fuel (.chain (rt.chainFor req.method) req k st2)
  | fuel + 1, .chain hs req k st =>
    match hs with
    | [] => k none st
    | h :: rest =>
      let k' : Done := fun e' s =>
        match e' with
        | some er => k (some er) s
        | none => exec enc fuel (.chain rest req k s)
      match h with
      | .act a => runAction a k' st
      | .router sub =>
        exec enc fuel (.disp sub req (wrapDone enc req.method k') 0 [] none st)

/-- `Router.route` (router.go lines 186-261): wrap the terminal callback for
`OPTIONS`, then invoke `next(nil)` at cursor 0 with an empty accumulator. -/
def Router.route (enc : Enc) (fuel : Nat) (r : Router) (req : Request) (done : Done)
    (st : DState) : Option DState :=
  exec enc fuel (.disp r req (wrapDone enc req.method done) 0 [] none st)

/-- `Router.HTTPHandle` (router.go lines 264-266): a router used as a
handler dispatches itself with the given continuation as terminal
callback. -/
def Router.HTTPHandle (enc : Enc) (fuel : Nat) (r : Router) (req : Request) (next : Done)
    (st : DState) : Option DState :=
  r.route enc fuel req next st

/-- `NewRouter()` (router.go lines 32-38). -/
def NewRouter : Router := .mk [] ""

/-- `Router.Use` (router.go lines 41-58): default an empty path to `/`;
for each handler append a middleware layer (`l.route = nil`) under that
path; a handler that is itself a router gets its `routerPrefix` set to this
router's prefix concatenated with the path, at this moment. -/
def Router.Use (r : Router) (path : String) (handlers : List Handler) : Router :=
  let p := if path = "" then "/" else path
  .mk (r.stack ++ handlers.map (fun h =>
    match h with
    | .router sub => Layer.mw p (.router (.mk sub.stack (r.routerPrefix ++ p)))
    | h => Layer.mw p h)) r.routerPrefix

/-- `Router.addHandler` (router.go lines 96-113) composed with
`Router.Route` (lines 71-80): append one route layer at `path` whose fresh
route registers `handlers` under `method` when the method is one of the
five recognized ones (others are ignored, leaving the route's table
empty). -/
def Router.addHandler (r : Router) (method path : String) (handlers : List Handler) : Router :=
  let ms := if ["GET", "POST", "PUT", "DELETE", "HEAD"].contains method
    then [(method, handlers)] else []
  .mk (r.stack ++ [Layer.rt path (.mk path ms)]) r.routerPrefix

/-- `Router.GET` (router.go lines 116-118). -/
def Router.GET (r : Router) (path : String) (hs : List Handler) : Router :=
  r.addHandler "GET" path hs

/-- `Router.POST` (router.go lines 121-123). -/
def Router.POST (r : Router) (path : String) (hs : List Handler) : Router :=
  r.addHandler "POST" path hs

/-- `Router.PUT` (router.go lines 126-128). -/
def Router.PUT (r : Router) (path : String) (hs : List Handler) : Router :=
  r.addHandler "PUT" path hs

/-- `Router.DELETE` (router.go lines 131-133). -/
def Router.DELETE (r : Router) (path : String) (hs : List Handler) : Router :=
  r.addHandler "DELETE" path hs

/-- `Router.HEAD` (router.go lines 136-138). -/
def Router.HEAD (r : Router) (path : String) (hs : List Handler) : Router :=
  r.addHandler "HEAD" path hs

/-- Modelled from the spec: a concrete always-succeeding body encoder in the
shape of `json.Marshal` on a string slice, rendering a JSON array of JSON
strings (no escaping is needed for the method names that occur here). -/
def jsonStr (s : String) : String := "\"" ++ s ++ "\""

/-- Render a JSON array of strings. -/
def jsonArr (l : List String) : String := "[" ++ joinComma (l.map jsonStr) ++ "]"

/-- The always-succeeding encoder instance. -/
def encOk : Enc := fun l => .ok (jsonArr l)

/-- A terminal callback that records its invocation and the error it
received as a `terminal` event (the observable stand-in for the default
not-found / server-error callback of `ServeHTTP`, router.go lines 269-277). -/
def doneTrace : Done := fun e st => some (pushEvent st (.terminal e))

/-- The empty observable state. -/
def st0 : DState := ⟨[], [], [], []⟩

/-- A layer is usable for a request (the scan loop's exit condition,
router.go lines 228-249): it path-matches and carries no route, or its
route handles the method, or the method is `HEAD`. -/
def layerEligible (method path : String) (l : Layer) : Bool :=
  (l.matchPath path).2 &&
    (match l.route with
     | none => true
     | some rt => rt.handlesMethod method || method == "HEAD")

/-- What one layer contributes to the accumulated `OPTIONS` methods
(router.go lines 240-244): its route's `optionsMethods()` when it
path-matches and the route does not handle `OPTIONS`, nothing otherwise. -/
def optionsContrib (path : String) (l : Layer) : List String :=
  match l.route with
  | none => []
  | some rt =>
    if (l.matchPath path).2 && !rt.handlesMethod "OPTIONS" then rt.optionsMethods else []

/-- The total `OPTIONS` contribution of a stack suffix, in scan order. -/
def optionsAccum (path : String) (ls : List Layer) : List String :=
  ls.foldr (fun l acc => optionsContrib path l ++ acc) []

/-- A terminal callback of the unwrapped shape (`DoneA`) that records its
invocation and error. -/
def doneA0 : DoneA := fun _ e st => some (pushEvent st (.terminal e))

/-- A router mounted at prefix `/api` holding one `GET /users` route: what
`Use("/api", b)` produces for a child `b` that registered `GET("/users")`. -/
def R1 : Router :=
  .mk [Layer.rt "/users" (.mk "/users" [("GET", [.act (.send 7 "u")])])] "/api"

/-- A router with prefix `/api` and a layer registered at pattern `/`. -/
def R10 : Router := .mk [Layer.mw "/" (.act (.tapNext 1 none))] "/api"

/-- A root router with a child router mounted at `/api`, the child holding a
`GET /users` route. -/
def A2 : Router :=
  NewRouter.Use "/api" [.router (NewRouter.GET "/users" [.act (.send 9 "u")])]

/-- The mounted child of `A2`, as `Use` produces it: its stack under its
composed prefix `/api`. -/
def Bsub : Router :=
  .mk [Layer.rt "/users" (.mk "/users" [("GET", [.act (.send 9 "u")])])] "/api"

/-- Layer `L1` of the registration-order example: a `GET` route at `/x`. -/
def L1 : Layer := .rt "/x" (.mk "/x" [("GET", [.act (.tapNext 1 none)])])

/-- Layer `L2`: a `POST` route at `/x`, registered after `L1`. -/
def L2 : Layer := .rt "/x" (.mk "/x" [("POST", [.act (.send 2 "x2")])])

/-- Layer `L3`: a second `POST` route at `/x`, registered after `L2`. -/
def L3 : Layer := .rt "/x" (.mk "/x" [("POST", [.act (.send 3 "x3")])])

/-- The three-layer router of the registration-order example. -/
def R4 : Router := .mk [L1, L2, L3] ""

/-- A router with two routes at `/x`: one supporting `GET`, one `POST`. -/
def R5 : Router := (NewRouter.GET "/x" [.act (.send 1 "g")]).POST "/x" [.act (.send 2 "p")]

/-- A router with a single route at `/x` registered only for `GET`. -/
def R6 : Router := NewRouter.GET "/x" [.act (.send 1 "g")]

/-- Router A of the sub-router composition example: child router B mounted
at `/api`, B holding a `GET /users` route. -/
def A7 : Router :=
  NewRouter.Use "/api" [.router (NewRouter.GET "/users" [.act (.send 3 "users")])]

/-- An always-failing body encoder. -/
def encFail : Enc := fun _ => .error "boom"

/-- Stripping the empty prefix leaves a path unchanged. -/
theorem trimPrefix_nil (s : String) : trimPrefix s "" = s := by
  cases s with
  | mk l => cases l <;> rfl

/-- The wrapped terminal callback, invoked with an error, always delegates
to the original callback with that error (both branches of the wrapping on
router.go lines 190-208). -/
theorem wrapDone_some (enc : Enc) (m : String) (done : Done) (al : List String)
    (e : Err) (st : DState) : wrapDone enc m done al (some e) st = done (some e) st := by
  unfold wrapDone
  by_cases h : m = "OPTIONS" <;> simp [h, optionsDone]

/-- One `next(err)` step with a pending error always ends in the terminal
callback applied to that error and the unchanged state (router.go lines
251-254), whatever the scan found. -/
theorem exec_disp_err (enc : Enc) (fuel : Nat) (r : Router) (req : Request)
    (doneA : DoneA) (idx : Nat) (allow : List String) (e : Err) (st : DState) :
    ∃ al, exec enc (fuel + 1) (.disp r req doneA idx allow (some e) st)
      = doneA al (some e) st := by
  simp only [exec]
  by_cases h1 : r.stack.length ≤ idx
  · exact ⟨allow, by simp [h1]⟩
  · simp only [if_neg h1]
    by_cases h2 : trimPrefix req.path r.routerPrefix = ""
    · exact ⟨allow, by simp [h2]⟩
    · simp only [if_neg h2]
      rcases hs : scanStack (r.stack.drop idx) idx (trimPrefix req.path r.routerPrefix)
          req.method allow with ⟨fnd, al⟩
      cases fnd with
      | none => exact ⟨al, by simp [hs]⟩
      | some sel => exact ⟨al, by rcases sel with ⟨j, l, ps⟩; simp [hs]⟩

/-- C3: whenever the continuation is invoked with a non-nil error, the
terminal callback receives exactly that error and the unchanged state — no
later layer's handler executes, even if a later layer matches the request
(router.go lines 210-258; the `OPTIONS` wrapper also passes an error
through unchanged). -/
theorem c3_error_short_circuit (enc : Enc) (fuel : Nat) (r : Router) (req : Request)
    (done : Done) (idx : Nat) (allow : List String) (e : Err) (st : DState) :
    exec enc (fuel + 1) (.disp r req (wrapDone enc req.method done) idx allow (some e) st)
      = done (some e) st := by
  obtain ⟨al, h⟩ := exec_disp_err enc fuel r req (wrapDone enc req.method done) idx allow e st
  rw [h, wrapDone_some]

/-- C9: on the error path the request's queryable parameter set is left
unchanged: for any terminal callback that preserves the query state, the
query reaching the end of the dispatch is exactly the input query —
captured parameters are never merged when the continuation carries an
error (router.go lines 251-257: `done(err)` returns before
`registerParamsAsQuery`). -/
theorem c9_query_unchanged_on_error (enc : Enc) (fuel : Nat) (r : Router) (req : Request)
    (done : Done) (idx : Nat) (allow : List String) (e : Err) (st : DState)
    (hq : ∀ e' s, (done e' s).map DState.query = some (DState.query s)) :
    (exec enc (fuel + 1)
        (.disp r req (wrapDone enc req.method done) idx allow (some e) st)).map DState.query
      = some st.query := by
  obtain ⟨al, h⟩ := exec_disp_err enc fuel r req (wrapDone enc req.method done) idx allow e st
  rw [h, wrapDone_some]
  exact hq _ _

/-- C9 witness: a concrete error-path dispatch over a router whose layer
would match, with the tracing terminal callback, preserves the query. -/
theorem c9_query_unchanged_on_error_witness :
    (exec encOk 5
        (.disp R1 ⟨"GET", "/users"⟩ (wrapDone encOk "GET" doneTrace) 0 [] (some "boom")
          st0)).map DState.query
      = some st0.query :=
  c9_query_unchanged_on_error encOk 4 R1 ⟨"GET", "/users"⟩ doneTrace 0 [] "boom" st0
    (fun _ _ => rfl)

/-- C10: when stripping the router's prefix off the request path yields the
empty string, `next` invokes the terminal callback with the current error
without inspecting any layer (router.go lines 216-220), so no layer — a
layer registered at `/` included — can match a request for exactly the
mount prefix. -/
theorem c10_empty_trim_escalates (enc : Enc) (fuel : Nat) (r : Router) (req : Request)
    (doneA : DoneA) (idx : Nat) (allow : List String) (e : Option Err) (st : DState)
    (h : trimPrefix req.path r.routerPrefix = "") :
    exec enc (fuel + 1) (.disp r req doneA idx allow e st) = doneA allow e st := by
  simp only [exec]
  by_cases h1 : r.stack.length ≤ idx
  · simp [h1]
  · simp [h1, h]

/-- C10 witness: `R10` is mounted at `/api` and owns a layer at pattern
`/`; a request for exactly `/api` strips to the empty path and the dispatch
step hands the current error straight to the terminal callback. -/
theorem c10_empty_trim_escalates_witness :
    trimPrefix "/api" (Router.routerPrefix R10) = "" ∧
      exec encOk 5 (.disp R10 ⟨"GET", "/api"⟩ doneA0 0 [] none st0) = doneA0 [] none st0 :=
  ⟨rfl, c10_empty_trim_escalates encOk 4 R10 ⟨"GET", "/api"⟩ doneA0 0 [] none st0 rfl⟩

/-- The dispatch continuation depends on the router's prefix only through
the stripped path: two routers with the same stack whose prefixes strip the
request path to the same result dispatch identically. -/
theorem exec_disp_same_path (enc : Enc) (r1 r2 : Router) (req : Request)
    (hst : r1.stack = r2.stack)
    (hp : trimPrefix req.path r1.routerPrefix = trimPrefix req.path r2.routerPrefix) :
    ∀ (fuel : Nat) (doneA : DoneA) (idx : Nat) (allow : List String) (e : Option Err)
      (st : DState),
      exec enc fuel (.disp r1 req doneA idx allow e st)
        = exec enc fuel (.disp r2 req doneA idx allow e st) := by
  intro fuel
  induction fuel with
  | zero => intro doneA idx allow e st; rfl
  | succ n ih =>
    intro doneA idx allow e st
    have hk : ∀ (dA : DoneA) (i : Nat) (al : List String),
        (fun (e' : Option Err) (s : DState) => exec enc n (.disp r1 req dA i al e' s))
          = fun (e' : Option Err) (s : DState) => exec enc n (.disp r2 req dA i al e' s) := by
      intro dA i al
      funext e' s
      exact ih dA i al e' s
    simp only [exec, hst, hp]
    by_cases h1 : r2.stack.length ≤ idx
    · simp [h1]
    · simp only [if_neg h1]
      by_cases h2 : trimPrefix req.path r2.routerPrefix = ""
      · simp [h2]
      · simp only [if_neg h2]
        rcases hs : scanStack (r2.stack.drop idx) idx (trimPrefix req.path r2.routerPrefix)
            req.method allow with ⟨fnd, al⟩
        cases fnd with
        | none => rfl
        | some sel =>
          rcases sel with ⟨j, l, ps⟩
          cases e with
          | some er => rfl
          | none =>
            dsimp only
            rw [hk doneA (j + 1) al]

/-- C1 counterexample: `R1` has the non-empty prefix `/api`, and the request
path `/users` is not under it — stripping leaves it unchanged.  The claim
says dispatch escalates to the terminal callback without matching any layer
or executing any handler; the code instead scans with the unchanged path,
matches the `/users` layer (event `layerInvoked 0`), runs its handler
(event `ran 7`, body write `u`), and never invokes the terminal callback
(no `terminal` event). -/
theorem c1_counterexample :
    Router.routerPrefix R1 = "/api" ∧ trimPrefix "/users" "/api" = "/users" ∧
      Router.route encOk 10 R1 ⟨"GET", "/users"⟩ doneTrace st0
        = some ⟨[], ["u"], [], [.layerInvoked 0, .ran 7]⟩ :=
  ⟨rfl, rfl, rfl⟩

/-- C1 amended: when stripping the router's prefix leaves the request path
unchanged (the path is not under the prefix), the dispatch does not
escalate early — it behaves exactly as the same stack under an empty
prefix, scanning the unchanged full path, so layers may match and run;
escalation without a scan happens only when the stripped path is empty
(router.go lines 216-220 test only for the empty string). -/
theorem c1_prefix_mismatch_scans_full_path (enc : Enc) (fuel : Nat) (r : Router)
    (req : Request) (doneA : DoneA) (idx : Nat) (allow : List String) (e : Option Err)
    (st : DState) (h : trimPrefix req.path r.routerPrefix = req.path) :
    exec enc fuel (.disp r req doneA idx allow e st)
      = exec enc fuel (.disp (.mk r.stack "") req doneA idx allow e st) :=
  exec_disp_same_path enc r (.mk r.stack "") req rfl
    (h.trans (trimPrefix_nil req.path).symm) fuel doneA idx allow e st

/-- C1 amended witness: for `R1` and the out-of-prefix path `/users`,
stripping leaves the path unchanged and the dispatch equals the dispatch of
the same stack with an empty prefix. -/
theorem c1_prefix_mismatch_scans_full_path_witness :
    trimPrefix "/users" (Router.routerPrefix R1) = "/users" ∧
      exec encOk 10 (.disp R1 ⟨"GET", "/users"⟩ doneA0 0 [] none st0)
        = exec encOk 10 (.disp (.mk (Router.stack R1) "") ⟨"GET", "/users"⟩ doneA0 0 [] none st0) :=
  ⟨rfl,
    c1_prefix_mismatch_scans_full_path encOk 10 R1 ⟨"GET", "/users"⟩ doneA0 0 [] none st0 rfl⟩

/-- C2 counterexample: `A2` mounts a child router at `/api` whose only route
is `GET /users`.  Dispatching `OPTIONS /api/users` from the root: the claim
says the automatic OPTIONS response is produced only at the root entry
point and a nested router whose scan exhausts always invokes its parent's
continuation.  The code instead installs the wrapper at every `route()`
invocation: the nested router's scan exhausts having accumulated `GET`, and
its own wrapper writes the `Allow` header and body right there — the
parent's scan never resumes and the root terminal callback is never invoked
(no `terminal` event in the trace). -/
theorem c2_counterexample :
    Router.route encOk 10 A2 ⟨"OPTIONS", "/api/users"⟩ doneTrace st0
      = some ⟨[("Allow", "GET")], ["[\"GET\"]"], [], [.layerInvoked 0]⟩ :=
  rfl

/-- C2 amended: the automatic OPTIONS wrapper is installed at every
dispatch invocation, nested routers included.  A router invoked as a
handler (`HTTPHandle`) for an `OPTIONS` request whose scan exhausts with no
error ends in its own wrapper applied to the continuation its parent gave
it: the parent's continuation is reached only when the router's own
accumulated method list is empty — otherwise the nested router produces the
OPTIONS response itself. -/
theorem c2_nested_options_responder (enc : Enc) (fuel : Nat) (sub : Router) (req : Request)
    (k : Done) (st : DState) (allow' : List String)
    (h1 : req.method = "OPTIONS")
    (h2 : trimPrefix req.path sub.routerPrefix ≠ "")
    (hscan : scanStack sub.stack 0 (trimPrefix req.path sub.routerPrefix) req.method []
      = (none, allow')) :
    Router.HTTPHandle enc (fuel + 1) sub req k st = optionsDone enc k allow' none st := by
  unfold Router.HTTPHandle Router.route
  rw [h1] at hscan ⊢
  simp only [exec]
  by_cases hlen : sub.stack.length ≤ 0
  · have hnil : sub.stack = [] := List.eq_nil_of_length_eq_zero (Nat.le_zero.mp hlen)
    rw [hnil] at hscan
    simp only [scanStack, Prod.mk.injEq] at hscan
    have ha : allow' = [] := hscan.2.symm
    simp [hlen, wrapDone, ha]
  · simp only [if_neg hlen]
    by_cases h2' : trimPrefix req.path sub.routerPrefix = ""
    · exact absurd h2' h2
    · simp only [if_neg h2']
      rw [h1, List.drop_zero, hscan]
      simp [wrapDone]

/-- C2 amended witness: the mounted child `Bsub` (prefix `/api`, one
`GET /users` route), invoked as a handler for `OPTIONS /api/users` with the
tracing callback as its parent continuation, ends in its own OPTIONS
wrapper with accumulated list `["GET"]`. -/
theorem c2_nested_options_responder_witness :
    Router.HTTPHandle encOk 10 Bsub ⟨"OPTIONS", "/api/users"⟩ doneTrace st0
      = optionsDone encOk doneTrace ["GET"] none st0 :=
  c2_nested_options_responder encOk 9 Bsub ⟨"OPTIONS", "/api/users"⟩ doneTrace st0 ["GET"]
    rfl (by decide) rfl

/-- C4: the scan (router.go lines 228-249) moves only forward: a selected
layer sits at index `i + k`, is eligible (path-matches and carries no
route, or its route handles the method, or the method is `HEAD`), its
captured parameters are its own match's, and every layer scanned before it
is ineligible — so the handler invoked is always the earliest
not-yet-visited eligible layer, a path-matching layer with the wrong method
is skipped permanently, and, since the continuation resumes past the
selected index, no layer is visited twice.  Second conjunct: the spec's
registration-order example — `L1` (matches, wrong method), `L2` and `L3`
(match, right method) — dispatched with `POST` runs exactly `L2`'s
handler. -/
theorem c4_scan_first_eligible :
    (∀ (ls : List Layer) (i : Nat) (path method : String) (allow : List String)
        (j : Nat) (l : Layer) (ps : List (String × String)) (allow' : List String),
        scanStack ls i path method allow = (some (j, l, ps), allow') →
        ∃ k, j = i + k ∧ k < ls.length ∧ ls[k]? = some l ∧
          layerEligible method path l = true ∧ ps = (l.matchPath path).1 ∧
          ∀ k' : Nat, k' < k → ∀ l' : Layer, ls[k']? = some l' →
            layerEligible method path l' = false)
    ∧ Router.route encOk 10 R4 ⟨"POST", "/x"⟩ doneTrace st0
        = some ⟨[], ["x2"], [], [.layerInvoked 1, .ran 2]⟩ := by
  constructor
  · intro ls
    induction ls with
    | nil =>
      intro i path method allow j l ps allow' h
      simp [scanStack] at h
    | cons l0 rest ih =>
      intro i path method allow j l ps allow' h
      rcases hm : l0.matchPath path with ⟨ps0, b⟩
      cases b with
      | false =>
        simp only [scanStack, hm] at h
        obtain ⟨k, hk1, hk2, hk3, hk4, hk5, hk6⟩ := ih (i + 1) path method allow j l ps allow' h
        refine ⟨k + 1, by omega, by simp; omega, by simpa using hk3, hk4, hk5, ?_⟩
        intro k' hk' l' hl'
        cases k' with
        | zero =>
          simp at hl'
          subst hl'
          simp [layerEligible, hm]
        | succ k2 =>
          simp at hl'
          exact hk6 k2 (by omega) l' (by simpa using hl')
      | true =>
        rcases hr : l0.route with - | rt
        · simp only [scanStack, hm, hr, Prod.mk.injEq, Option.some.injEq] at h
          rcases h with ⟨⟨rfl, rfl, rfl⟩, rfl⟩
          refine ⟨0, by omega, by simp, by simp, ?_, ?_, by omega⟩
          · simp [layerEligible, hm, hr]
          · rw [hm]
        · by_cases hh : rt.handlesMethod method
          · simp only [scanStack, hm, hr, hh, if_true, Prod.mk.injEq, Option.some.injEq] at h
            rcases h with ⟨⟨rfl, rfl, rfl⟩, rfl⟩
            refine ⟨0, by omega, by simp, by simp, ?_, ?_, by omega⟩
            · simp [layerEligible, hm, hr, hh]
            · rw [hm]
          · by_cases hhd : method = "HEAD"
            · subst hhd
              simp only [scanStack, hm, hr, hh, Prod.mk.injEq, Option.some.injEq,
                if_false, if_true] at h
              rcases h with ⟨⟨rfl, rfl, rfl⟩, rfl⟩
              refine ⟨0, by omega, by simp, by simp, ?_, ?_, by omega⟩
              · simp [layerEligible, hm, hr]
              · rw [hm]
            · simp only [scanStack, hm, hr, hh, hhd, if_false] at h
              obtain ⟨k, hk1, hk2, hk3, hk4, hk5, hk6⟩ :=
                ih (i + 1) path method _ j l ps allow' h
              refine ⟨k + 1, by omega, by simp; omega, by simpa using hk3, hk4, hk5, ?_⟩
              intro k' hk' l' hl'
              cases k' with
              | zero =>
                simp at hl'
                subst hl'
                simp [layerEligible, hm, hr, hh, hhd]
              | succ k2 =>
                simp at hl'
                exact hk6 k2 (by omega) l' (by simpa using hl')
  · rfl

/-- C4 witness: in `[L1, L2, L3]` scanned for `POST` from index 0, the
selected layer is `L2` at offset 1, eligible, and the single earlier layer
is ineligible. -/
theorem c4_scan_first_eligible_witness :
    ∃ k, 1 = 0 + k ∧ k < [L1, L2, L3].length ∧ [L1, L2, L3][k]? = some L2 ∧
      layerEligible "POST" "/x" L2 = true ∧
      ([] : List (String × String)) = (L2.matchPath "/x").1 ∧
      ∀ k' : Nat, k' < k → ∀ l' : Layer, [L1, L2, L3][k']? = some l' →
        layerEligible "POST" "/x" l' = false :=
  c4_scan_first_eligible.1 [L1, L2, L3] 0 "/x" "POST" [] 1 L2 [] [] rfl

/-- C5: when an `OPTIONS` scan exhausts the stack, the final accumulator is
the input accumulator followed by the `optionsMethods()` of every
path-matching route that does not handle `OPTIONS`, in scan order and
without deduplication (router.go lines 240-244).  Second conjunct: a path
with a `GET` route and a `POST` route, dispatched `OPTIONS`, produces the
`Allow` response listing `GET,POST` in registration order and never reaches
the not-found callback (no `terminal` event). -/
theorem c5_options_aggregation :
    (∀ (ls : List Layer) (i : Nat) (path : String) (allow res : List String),
        scanStack ls i path "OPTIONS" allow = (none, res) →
        res = allow ++ optionsAccum path ls)
    ∧ Router.route encOk 10 R5 ⟨"OPTIONS", "/x"⟩ doneTrace st0
        = some ⟨[("Allow", "GET,POST")], ["[\"GET\",\"POST\"]"], [], []⟩ := by
  constructor
  · intro ls
    induction ls with
    | nil =>
      intro i path allow res h
      simp only [scanStack, Prod.mk.injEq] at h
      simp [optionsAccum, h.2.symm]
    | cons l0 rest ih =>
      intro i path allow res h
      rcases hm : l0.matchPath path with ⟨ps0, b⟩
      cases b with
      | false =>
        simp only [scanStack, hm] at h
        have hres := ih (i + 1) path allow res h
        have hc : optionsContrib path l0 = [] := by
          unfold optionsContrib
          rcases hr : l0.route with - | rt
          · rfl
          · simp [hm]
        rw [show optionsAccum path (l0 :: rest)
            = optionsContrib path l0 ++ optionsAccum path rest from rfl, hc]
        simpa using hres
      | true =>
        rcases hr : l0.route with - | rt
        · simp [scanStack, hm, hr] at h
        · by_cases hh : rt.handlesMethod "OPTIONS"
          · simp [scanStack, hm, hr, hh] at h
          · simp only [scanStack, hm, hr, hh, if_false] at h
            simp only [show ("OPTIONS" = "OPTIONS") = True by simp,
              show ("OPTIONS" = "HEAD") = False by simp, if_true, if_false] at h
            have hres := ih (i + 1) path (allow ++ rt.optionsMethods) res h
            have hc : optionsContrib path l0 = rt.optionsMethods := by
              unfold optionsContrib
              simp [hr, hm, hh]
            rw [show optionsAccum path (l0 :: rest)
                = optionsContrib path l0 ++ optionsAccum path rest from rfl, hc]
            simp [hres, List.append_assoc]
  · rfl

/-- C5 witness: the two-route stack of `R5`, scanned for `OPTIONS`,
accumulates exactly `GET` then `POST`. -/
theorem c5_options_aggregation_witness :
    ["GET", "POST"] = [] ++ optionsAccum "/x" (Router.stack R5) :=
  c5_options_aggregation.1 (Router.stack R5) 0 "/x" [] ["GET", "POST"] rfl

/-- C6: a path-matching layer that carries a route is selected by a `HEAD`
scan whatever `handlesMethod` returns for `HEAD` (router.go line 246 only
demotes a match when the method differs from `HEAD`).  Second conjunct: the
modelled `handlesMethod` reports `true` for `HEAD` on a route registered
only for `GET`.  Third: dispatching `HEAD` against the `GET`-only route
`R6` matches it and runs its layer's handler (event `layerInvoked 0`; its
`HEAD` chain is empty, so the scan then exhausts into the terminal
callback). -/
theorem c6_head_fallback :
    (∀ (pat : String) (rt : Route) (rest : List Layer) (i : Nat) (path : String)
        (allow : List String) (ps : List (String × String)),
        (Layer.rt pat rt).matchPath path = (ps, true) →
        scanStack (Layer.rt pat rt :: rest) i path "HEAD" allow
          = (some (i, Layer.rt pat rt, ps), allow))
    ∧ (∀ h : Handler, (Route.mk "/x" [("GET", [h])]).handlesMethod "HEAD" = true)
    ∧ Router.route encOk 10 R6 ⟨"HEAD", "/x"⟩ doneTrace st0
        = some ⟨[], [], [], [.layerInvoked 0, .terminal none]⟩ := by
  refine ⟨?_, fun h => rfl, rfl⟩
  intro pat rt rest i path allow ps hm
  by_cases hh : rt.handlesMethod "HEAD"
  · simp [scanStack, Layer.route, hm, hh]
  · simp [scanStack, Layer.route, hm, hh]

/-- C6 witness: the `GET`-only route layer at `/x` path-matches `/x` and a
`HEAD` scan selects it at its own index. -/
theorem c6_head_fallback_witness :
    (Layer.rt "/x" (Route.mk "/x" [("GET", [.act (.send 1 "g")])])).matchPath "/x"
      = ([], true) ∧
    scanStack [Layer.rt "/x" (Route.mk "/x" [("GET", [.act (.send 1 "g")])])] 0 "/x" "HEAD" []
      = (some (0, Layer.rt "/x" (Route.mk "/x" [("GET", [.act (.send 1 "g")])]), []), []) :=
  ⟨rfl, c6_head_fallback.1 "/x" (Route.mk "/x" [("GET", [.act (.send 1 "g")])]) [] 0 "/x" [] []
    rfl⟩

/-- C7: `Use` mounts a handler that is itself a router by appending a
middleware layer whose stored router carries, from that moment, the prefix
`thisPrefix ++ path` (router.go lines 46-55).  Second conjunct: with child
B (route `GET /users`) mounted at `/api` under root A, dispatching
`GET /api/users` from A's root runs B's route handler.  Third: `GET /users`
alone is unreachable from A's root — the dispatch falls through to the
terminal callback with no layer invoked. -/
theorem c7_sub_router_mount :
    (∀ (r : Router) (p : String) (b : Router), p ≠ "" →
        (r.Use p [.router b]).stack
          = r.stack ++ [Layer.mw p (.router (.mk b.stack (r.routerPrefix ++ p)))])
    ∧ Router.route encOk 10 A7 ⟨"GET", "/api/users"⟩ doneTrace st0
        = some ⟨[], ["users"], [], [.layerInvoked 0, .layerInvoked 0, .ran 3]⟩
    ∧ Router.route encOk 10 A7 ⟨"GET", "/users"⟩ doneTrace st0
        = some ⟨[], [], [], [.terminal none]⟩ := by
  refine ⟨?_, rfl, rfl⟩
  intro r p b hp
  simp [Router.Use, Router.stack, hp]

/-- C7 witness: mounting the `GET /users` child at `/api` under a fresh
root appends one layer holding the child under composed prefix `/api`. -/
theorem c7_sub_router_mount_witness :
    (NewRouter.Use "/api" [.router (NewRouter.GET "/users" [.act (.send 3 "users")])]).stack
      = Router.stack NewRouter ++
          [Layer.mw "/api"
            (.router (.mk (Router.stack (NewRouter.GET "/users" [.act (.send 3 "users")]))
              (Router.routerPrefix NewRouter ++ "/api")))] :=
  c7_sub_router_mount.1 NewRouter "/api" (NewRouter.GET "/users" [.act (.send 3 "users")])
    (by decide)

/-- C8: when the automatic `OPTIONS` responder triggers (no error,
non-empty accumulated list) but the body encoder fails, the encoding error
is passed to the original terminal callback and no body is written — the
state handed over carries the `Allow` header already added but an unchanged
body (router.go lines 198-203). -/
theorem c8_encoding_failure_escalates (enc : Enc) (done : Done) (allow : List String)
    (er : Err) (st : DState) (hne : allow ≠ []) (henc : enc allow = .error er) :
    optionsDone enc done allow none st
      = done (some er) (addHeader st "Allow" (joinComma allow))
    ∧ (addHeader st "Allow" (joinComma allow)).body = st.body := by
  have hie : allow.isEmpty = false := by
    cases allow with
    | nil => exact absurd rfl hne
    | cons a as => rfl
  constructor
  · unfold optionsDone
    simp [hie, henc]
  · simp [addHeader]

/-- C8 witness: with the failing encoder and accumulated list `["GET"]`,
the responder hands the encoding error to the tracing terminal callback
with the body untouched. -/
theorem c8_encoding_failure_escalates_witness :
    optionsDone encFail doneTrace ["GET"] none st0
      = doneTrace (some "boom") (addHeader st0 "Allow" (joinComma ["GET"]))
    ∧ (addHeader st0 "Allow" (joinComma ["GET"])).body = st0.body :=
  c8_encoding_failure_escalates encFail doneTrace ["GET"] "boom" st0 (by decide) rfl

end Grest
